import Mathlib

/-!
Verification of the core logic of the Export File Watchdog service
(watchdog_service.py): rule matching, event debouncing, year extraction,
destination computation, startup scanning and the retrying file mover.

Each Python component is shallowly embedded as an executable Lean
definition translated from the source.  Filesystem and OS effects
(existence checks, the lock probe, shutil.move, time.sleep) are modelled
by explicit oracles recorded in an environment, and the observable
behaviour of a call (outcome branch taken, number of lock checks, number
of underlying move calls, number of sleeps, whether a move completed,
whether the destination directory was created) is returned as data.
-/

/-! ## Character-list utilities

The Python code works on lowercased filename strings with substring and
endswith tests.  These are modelled on `List Char`.
-/

/-- Lowercasing of a character list, modelling `str.lower()` for the
ASCII filenames this service handles. -/
def lowerChars (l : List Char) : List Char := l.map Char.toLower

/-- Boolean prefix test on character lists. -/
def isPrefixB : List Char → List Char → Bool
  | [], _ => true
  | _ :: _, [] => false
  | a :: as, b :: bs => if a = b then isPrefixB as bs else false

/-- Boolean suffix test, modelling `str.endswith`. -/
def isSuffixB (suf l : List Char) : Bool := isPrefixB suf.reverse l.reverse

/-- Boolean substring test, modelling the Python `needle in hay` test on
strings: first argument is the haystack, second the needle. -/
def containsSub : List Char → List Char → Bool
  | [], needle => needle.isEmpty
  | c :: t, needle => isPrefixB needle (c :: t) || containsSub t needle

/-- Path join, modelling `pathlib` `/` on the path segments this service
builds (the separator character itself never occurs inside a segment). -/
def joinPath (a b : String) : String := a ++ "/" ++ b

/-! ## FileMover (watchdog_service.py lines 22-117)

`FileMover.move_file` checks that the source exists, creates the
destination parent directory, then loops `attempt in range(1,
max_retries + 1)`: a lock probe, then `shutil.move` guarded by an
exception handler that retries IOError/OSError/PermissionError and
aborts on any other exception.  The OS is modelled by oracles indexed by
the attempt number.
-/

/-- Exception class raised by the modelled `shutil.move` call:
`ioLike` covers IOError, OSError and PermissionError (the retried
classes); `unexpected` covers every other exception. -/
inductive MoveErr
  | ioLike
  | unexpected
deriving DecidableEq

/-- Which log-and-return branch of `move_file` terminated the call. -/
inductive MoveOutcome
  | success
  | skippedMissing
  | failedLocked
  | failedMove
  | unexpectedFail
  | loopEnded
deriving DecidableEq

/-- Observable behaviour of one `move_file` call: terminating branch,
number of `is_file_locked` probes, number of `shutil.move` calls, number
of `time.sleep(retry_delay)` calls, and whether a move completed. -/
structure MoveRes where
  outcome : MoveOutcome
  lockChecks : Nat
  moveCalls : Nat
  sleeps : Nat
  moved : Bool
deriving DecidableEq

/-- Oracles describing the world a `move_file` call runs against:
whether the source exists at the initial check, whether it exists at the
lock probe of attempt `k`, whether the exclusive-open probe raises at
attempt `k`, and what `shutil.move` does at attempt `k`. -/
structure MoveEnv where
  srcExists0 : Bool
  srcExistsAt : Nat → Bool
  probeFails : Nat → Bool
  moveRaises : Nat → Option MoveErr

/-- `FileMover.is_file_locked` (lines 38-57): a missing file is reported
unlocked; otherwise the file is locked exactly when the exclusive
read-write open raises. -/
def is_file_locked (fileExists probeFails : Bool) : Bool :=
  if fileExists then probeFails else false

/-- Default `max_retries` of `FileMover.__init__`. -/
def defaultMaxRetries : Nat := 5

/-- Default `retry_delay` of `FileMover.__init__`, in seconds. -/
def defaultRetryDelay : Nat := 2

/-- The retry loop of `move_file` (lines 83-117).  `attempt` is the
1-based loop counter of `range(1, max_retries + 1)` and `fuel` the
number of remaining iterations; the loop starts with `attempt = 1` and
`fuel = maxRetries`.  Exhausted fuel corresponds to falling off the loop
(line 117, `return False`). -/
def moveLoop (env : MoveEnv) (maxRetries : Nat) : Nat → Nat → MoveRes
  | _, 0 => ⟨.loopEnded, 0, 0, 0, false⟩
  | attempt, fuel + 1 =>
    if is_file_locked (env.srcExistsAt attempt) (env.probeFails attempt) then
      if attempt < maxRetries then
        let r := moveLoop env maxRetries (attempt + 1) fuel
        { r with lockChecks := r.lockChecks + 1, sleeps := r.sleeps + 1 }
      else
        ⟨.failedLocked, 1, 0, 0, false⟩
    else
      match env.moveRaises attempt with
      | none => ⟨.success, 1, 1, 0, true⟩
      | some MoveErr.ioLike =>
        if attempt < maxRetries then
          let r := moveLoop env maxRetries (attempt + 1) fuel
          { r with lockChecks := r.lockChecks + 1, moveCalls := r.moveCalls + 1,
                   sleeps := r.sleeps + 1 }
        else
          ⟨.failedMove, 1, 1, 0, false⟩
      | some MoveErr.unexpected => ⟨.unexpectedFail, 1, 1, 0, false⟩

/-- `FileMover.move_file` (lines 59-117).  The second component records
whether `destination.parent.mkdir` (line 81) was reached: the missing
source early return at line 76 happens before it. -/
def move_file (env : MoveEnv) (maxRetries : Nat) : MoveRes × Bool :=
  if env.srcExists0 then
    (moveLoop env maxRetries 1 maxRetries, true)
  else
    ({ outcome := .skippedMissing, lockChecks := 0, moveCalls := 0,
       sleeps := 0, moved := false }, false)

/-- Behaviour of the retry loop when the lock probe reports locked at
every attempt: one lock check per iteration, no move call, one sleep
between consecutive attempts, terminating in the locked-failure branch. -/
theorem moveLoop_all_locked (env : MoveEnv) (maxRetries : Nat)
    (hlock : ∀ k, is_file_locked (env.srcExistsAt k) (env.probeFails k) = true) :
    ∀ fuel attempt, 1 ≤ fuel → attempt + fuel = maxRetries + 1 →
      moveLoop env maxRetries attempt fuel = ⟨.failedLocked, fuel, 0, fuel - 1, false⟩ := by
  intro fuel
  induction fuel with
  | zero => intro attempt h1 _; exact absurd h1 (by omega)
  | succ f ih =>
    intro attempt _ hsum
    by_cases hf : f = 0
    · subst hf
      have ha : attempt = maxRetries := by omega
      subst ha
      simp [moveLoop, hlock]
    · have hlt : attempt < maxRetries := by omega
      have ih2 := ih (attempt + 1) (by omega) (by omega)
      have hf1 : f - 1 + 1 = f := by omega
      simp [moveLoop, hlock, hlt, ih2, hf1]

/-- Behaviour of the retry loop when the source has vanished (so the
lock probe reports unlocked) and every `shutil.move` call raises a
retryable IO error: one lock check and one move call per iteration,
terminating in the IO-failure branch. -/
theorem moveLoop_vanished_io (env : MoveEnv) (maxRetries : Nat)
    (hvan : ∀ k, env.srcExistsAt k = false)
    (hio : ∀ k, env.moveRaises k = some MoveErr.ioLike) :
    ∀ fuel attempt, 1 ≤ fuel → attempt + fuel = maxRetries + 1 →
      moveLoop env maxRetries attempt fuel = ⟨.failedMove, fuel, fuel, fuel - 1, false⟩ := by
  intro fuel
  induction fuel with
  | zero => intro attempt h1 _; exact absurd h1 (by omega)
  | succ f ih =>
    intro attempt _ hsum
    by_cases hf : f = 0
    · subst hf
      have ha : attempt = maxRetries := by omega
      subst ha
      simp [moveLoop, is_file_locked, hvan, hio]
    · have hlt : attempt < maxRetries := by omega
      have ih2 := ih (attempt + 1) (by omega) (by omega)
      have hf1 : f - 1 + 1 = f := by omega
      simp [moveLoop, is_file_locked, hvan, hio, hlt, ih2, hf1]

/-- C3: moving a missing source is a no-op skip.  If the source does not
exist at the initial check, `move_file` returns the skipped outcome with
no lock check, no move call, no sleep, no completed move, and without
reaching the `mkdir` of the destination parent directory. -/
theorem c3_missing_source_noop (env : MoveEnv) (maxRetries : Nat)
    (h : env.srcExists0 = false) :
    move_file env maxRetries =
      ({ outcome := .skippedMissing, lockChecks := 0, moveCalls := 0,
         sleeps := 0, moved := false }, false) := by
  simp [move_file, h]

/-- Environment in which the source file is already gone. -/
def envMissing : MoveEnv :=
  ⟨false, fun _ => true, fun _ => true, fun _ => none⟩

/-- C3 witness: a concrete missing-source call evaluates to the skipped
no-op result. -/
theorem c3_missing_source_noop_witness :
    move_file envMissing defaultMaxRetries =
      ({ outcome := .skippedMissing, lockChecks := 0, moveCalls := 0,
         sleeps := 0, moved := false }, false) :=
  c3_missing_source_noop envMissing defaultMaxRetries rfl

/-- C4: locked-file retry bound.  If the source exists and the lock
probe reports locked at every attempt, `move_file` performs exactly
`maxRetries` lock checks separated by `maxRetries - 1` sleeps of the
fixed retry delay, never calls the underlying move, terminates in the
locked-failure branch, and no move of the source completes. -/
theorem c4_locked_retry_bound (env : MoveEnv) (maxRetries : Nat)
    (hsrc : env.srcExists0 = true) (hmr : 1 ≤ maxRetries)
    (hlock : ∀ k, is_file_locked (env.srcExistsAt k) (env.probeFails k) = true) :
    move_file env maxRetries =
      ({ outcome := .failedLocked, lockChecks := maxRetries, moveCalls := 0,
         sleeps := maxRetries - 1, moved := false }, true) := by
  have h := moveLoop_all_locked env maxRetries hlock maxRetries 1 hmr (by omega)
  simp [move_file, hsrc, h]

/-- Environment in which the source exists and stays locked forever. -/
def envLocked : MoveEnv :=
  ⟨true, fun _ => true, fun _ => true, fun _ => none⟩

/-- C4 witness: at the default five retries, a permanently locked file
yields five lock checks, four sleeps, zero move calls and the
locked-failure outcome. -/
theorem c4_locked_retry_bound_witness :
    move_file envLocked defaultMaxRetries =
      ({ outcome := .failedLocked, lockChecks := 5, moveCalls := 0,
         sleeps := 4, moved := false }, true) :=
  c4_locked_retry_bound envLocked defaultMaxRetries rfl (by decide) (fun _ => rfl)

/-- C10: the lock probe is total and treats a missing file as unlocked,
so a source that vanishes after the initial existence check is probed as
unlocked at every attempt, the underlying move is called at every
attempt, and its not-found error is retried and reported through the
IO-failure branch, not the source-missing skip. -/
theorem c10_lock_probe_total_missing_source_retry (env : MoveEnv) (maxRetries : Nat)
    (hsrc : env.srcExists0 = true) (hmr : 1 ≤ maxRetries)
    (hvan : ∀ k, env.srcExistsAt k = false)
    (hio : ∀ k, env.moveRaises k = some MoveErr.ioLike) :
    (∀ probe, is_file_locked false probe = false) ∧
    move_file env maxRetries =
      ({ outcome := .failedMove, lockChecks := maxRetries, moveCalls := maxRetries,
         sleeps := maxRetries - 1, moved := false }, true) ∧
    (move_file env maxRetries).1.outcome ≠ .skippedMissing := by
  have h := moveLoop_vanished_io env maxRetries hvan hio maxRetries 1 hmr (by omega)
  refine ⟨fun probe => rfl, ?_, ?_⟩
  · simp [move_file, hsrc, h]
  · simp [move_file, hsrc, h]

/-- Environment in which the source exists at the initial check but has
vanished by the first attempt, every move call raising a not-found
OSError. -/
def envVanished : MoveEnv :=
  ⟨true, fun _ => false, fun _ => false, fun _ => some MoveErr.ioLike⟩

/-- C10 witness: the concrete vanished-source run at the default five
retries performs five move calls and ends in the IO-failure branch. -/
theorem c10_lock_probe_total_missing_source_retry_witness :
    (∀ probe, is_file_locked false probe = false) ∧
    move_file envVanished defaultMaxRetries =
      ({ outcome := .failedMove, lockChecks := 5, moveCalls := 5,
         sleeps := 4, moved := false }, true) ∧
    (move_file envVanished defaultMaxRetries).1.outcome ≠ .skippedMissing :=
  c10_lock_probe_total_missing_source_retry envVanished defaultMaxRetries rfl
    (by decide) (fun _ => rfl) (fun _ => rfl)

/-! ## YearExtractor (watchdog_service.py lines 120-176)

`extract_year_start` embeds the anchored regex `^(\d{4})_` of
`re.match`; `extract_year_end_range` embeds the leftmost search for
`to_(\d{4})_` of `re.search`, scanning start positions left to right.
-/

/-- The anchored match of `re.match` with pattern caret `(\d{4})_`:
succeeds exactly when the first four characters are digits and the
fifth is an underscore, returning those four digits. -/
def extract_year_start (l : List Char) : Option (List Char) :=
  match l with
  | a :: b :: c :: d :: e :: _ =>
    if a.isDigit && b.isDigit && c.isDigit && d.isDigit && (e == '_') then
      some [a, b, c, d]
    else
      none
  | _ => none

/-- One attempted match of the pattern `to_(\d{4})_` at the head of the
list, as the regex engine tries at a single start position. -/
def matchToAt (l : List Char) : Option (List Char) :=
  match l with
  | 't' :: 'o' :: '_' :: a :: b :: c :: d :: '_' :: _ =>
    if a.isDigit && b.isDigit && c.isDigit && d.isDigit then
      some [a, b, c, d]
    else
      none
  | _ => none

/-- The scanning search of `re.search` with pattern `to_(\d{4})_`:
tries every start position from the left and returns the captured four
digits of the first position that matches. -/
def extract_year_end_range : List Char → Option (List Char)
  | [] => none
  | c :: t =>
    match matchToAt (c :: t) with
    | some y => some y
    | none => extract_year_end_range t

/-- `YearExtractor.extract_year` (lines 159-176): strategy dispatch. -/
def extract_year (l : List Char) (strategy : String) : Option (List Char) :=
  if strategy = "start" then extract_year_start l
  else if strategy = "end_range" then extract_year_end_range l
  else none

/-- Characterization of one positional match of `to_(\d{4})_`. -/
theorem matchToAt_some (l : List Char) (y : List Char) :
    matchToAt l = some y ↔
      ∃ a b c d rest, l = 't' :: 'o' :: '_' :: a :: b :: c :: d :: '_' :: rest ∧
        a.isDigit = true ∧ b.isDigit = true ∧ c.isDigit = true ∧ d.isDigit = true ∧
        y = [a, b, c, d] := by
  constructor
  · intro h
    unfold matchToAt at h
    split at h
    · rename_i a b c d rest
      split at h
      · rename_i hcond
        simp only [Bool.and_eq_true] at hcond
        obtain ⟨⟨⟨ha, hb⟩, hc⟩, hd⟩ := hcond
        exact ⟨a, b, c, d, rest, rfl, ha, hb, hc, hd, (Option.some.injEq _ _).mp h.symm ▸ rfl⟩
      · exact absurd h (by simp)
    · exact absurd h (by simp)
  · rintro ⟨a, b, c, d, rest, rfl, ha, hb, hc, hd, rfl⟩
    simp [matchToAt, ha, hb, hc, hd]

/-- The scanning search succeeds exactly when some position carries the
pattern `to_` plus four digits plus underscore. -/
theorem extract_year_end_range_isSome (l : List Char) :
    (extract_year_end_range l).isSome = true ↔
      ∃ pre a b c d rest,
        l = pre ++ 't' :: 'o' :: '_' :: a :: b :: c :: d :: '_' :: rest ∧
        a.isDigit = true ∧ b.isDigit = true ∧ c.isDigit = true ∧ d.isDigit = true := by
  induction l with
  | nil =>
    simp only [extract_year_end_range, Option.isSome_none]
    constructor
    · intro h; cases h
    · rintro ⟨pre, a, b, c, d, rest, hl, _⟩
      exact absurd hl (by simp)
  | cons c0 t ih =>
    constructor
    · intro h
      unfold extract_year_end_range at h
      cases hm : matchToAt (c0 :: t) with
      | some y =>
        obtain ⟨a, b, c, d, rest, hl, ha, hb, hc, hd, _⟩ := (matchToAt_some _ _).mp hm
        exact ⟨[], a, b, c, d, rest, hl, ha, hb, hc, hd⟩
      | none =>
        rw [hm] at h
        obtain ⟨pre, a, b, c, d, rest, hl, ha, hb, hc, hd⟩ := ih.mp h
        exact ⟨c0 :: pre, a, b, c, d, rest, by simp [hl], ha, hb, hc, hd⟩
    · rintro ⟨pre, a, b, c, d, rest, hl, ha, hb, hc, hd⟩
      unfold extract_year_end_range
      cases hm : matchToAt (c0 :: t) with
      | some y => simp
      | none =>
        cases pre with
        | nil =>
          simp only [List.nil_append] at hl
          have : matchToAt (c0 :: t) = some [a, b, c, d] :=
            (matchToAt_some _ _).mpr ⟨a, b, c, d, rest, hl, ha, hb, hc, hd, rfl⟩
          rw [hm] at this; cases this
        | cons p ps =>
          simp only [List.cons_append, List.cons.injEq] at hl
          exact ih.mpr ⟨ps, a, b, c, d, rest, hl.2, ha, hb, hc, hd⟩

/-- When the scanning search returns a value, that value is four digits
standing between a `to_` and an underscore somewhere in the input. -/
theorem extract_year_end_range_shape (l : List Char) (y : List Char)
    (h : extract_year_end_range l = some y) :
    ∃ pre a b c d rest,
      l = pre ++ 't' :: 'o' :: '_' :: a :: b :: c :: d :: '_' :: rest ∧
      a.isDigit = true ∧ b.isDigit = true ∧ c.isDigit = true ∧ d.isDigit = true ∧
      y = [a, b, c, d] := by
  induction l with
  | nil => cases h
  | cons c0 t ih =>
    unfold extract_year_end_range at h
    cases hm : matchToAt (c0 :: t) with
    | some y0 =>
      rw [hm] at h
      obtain ⟨a, b, c, d, rest, hl, ha, hb, hc, hd, hy⟩ := (matchToAt_some _ _).mp hm
      cases h
      exact ⟨[], a, b, c, d, rest, hl, ha, hb, hc, hd, hy⟩
    | none =>
      rw [hm] at h
      obtain ⟨pre, a, b, c, d, rest, hl, ha, hb, hc, hd, hy⟩ := ih h
      exact ⟨c0 :: pre, a, b, c, d, rest, by simp [hl], ha, hb, hc, hd, hy⟩

/-- C5: YearExtractor reference definition.  The start strategy returns
the leading four digits exactly when the filename begins with four
digits followed by an underscore; the range-end strategy succeeds
exactly when the filename contains `to_` followed by four digits and an
underscore, and then returns such a four-digit group; and the three
reference examples evaluate as stated. -/
theorem c5_year_extractor_reference :
    (∀ l y, extract_year_start l = some y ↔
      ∃ a b c d rest, l = a :: b :: c :: d :: '_' :: rest ∧
        a.isDigit = true ∧ b.isDigit = true ∧ c.isDigit = true ∧ d.isDigit = true ∧
        y = [a, b, c, d]) ∧
    (∀ l, (extract_year_end_range l).isSome = true ↔
      ∃ pre a b c d rest,
        l = pre ++ 't' :: 'o' :: '_' :: a :: b :: c :: d :: '_' :: rest ∧
        a.isDigit = true ∧ b.isDigit = true ∧ c.isDigit = true ∧ d.isDigit = true) ∧
    (∀ l y, extract_year_end_range l = some y →
      ∃ pre a b c d rest,
        l = pre ++ 't' :: 'o' :: '_' :: a :: b :: c :: d :: '_' :: rest ∧
        a.isDigit = true ∧ b.isDigit = true ∧ c.isDigit = true ∧ d.isDigit = true ∧
        y = [a, b, c, d]) ∧
    extract_year ("2025_11_Monthly_CAD.xlsx".toList) "start" = some ("2025".toList) ∧
    extract_year ("no_year_here.xlsx".toList) "start" = none ∧
    extract_year ("2024_09_to_2025_09_Rolling13_RMS.xlsx".toList) "end_range" =
      some ("2025".toList) := by
  refine ⟨?_, extract_year_end_range_isSome, extract_year_end_range_shape,
    by decide, by decide, by decide⟩
  intro l y
  constructor
  · intro h
    unfold extract_year_start at h
    split at h
    · rename_i a b c d e rest
      split at h
      · rename_i hcond
        simp only [Bool.and_eq_true, beq_iff_eq] at hcond
        obtain ⟨⟨⟨⟨ha, hb⟩, hc⟩, hd⟩, he⟩ := hcond
        subst he
        cases h
        exact ⟨a, b, c, d, rest, rfl, ha, hb, hc, hd, rfl⟩
      · cases h
    · cases h
  · rintro ⟨a, b, c, d, rest, rfl, ha, hb, hc, hd, rfl⟩
    simp [extract_year_start, ha, hb, hc, hd]

/-- C5 witness: the part of the claim stated as an implication,
instantiated at the rolling-thirteen example filename. -/
theorem c5_year_extractor_reference_witness :
    ∃ pre a b c d rest,
      ("2024_09_to_2025_09_Rolling13_RMS.xlsx".toList) =
        pre ++ 't' :: 'o' :: '_' :: a :: b :: c :: d :: '_' :: rest ∧
      a.isDigit = true ∧ b.isDigit = true ∧ c.isDigit = true ∧ d.isDigit = true ∧
      ("2025".toList) = [a, b, c, d] :=
  c5_year_extractor_reference.2.2.1 ("2024_09_to_2025_09_Rolling13_RMS.xlsx".toList)
    ("2025".toList) (by decide)

/-! ## Rule tables (watchdog_service.py lines 219-316)

The two dictionaries `legacy_rules` and `new_rules` of
`ExportWatchdogHandler.__init__`, in their declaration order (Python
dictionaries iterate in insertion order).  Destination directories are
recorded relative to the export root; monitored folders are the three
paths of `monitor_paths`.
-/

/-- The three monitored folders of `monitor_paths` (lines 201-209). -/
inductive Folder
  | desktop
  | downOneDrive
  | downLocal
deriving DecidableEq

/-- One entry of the `legacy_rules` dictionary: dictionary key, source
folder, destination directory relative to the export root, filename
suffix, export type label and extension. -/
structure LegacyRule where
  key : String
  src : Folder
  destRel : String
  suffix : String
  rtype : String
  format : String
deriving DecidableEq

/-- One entry of the `new_rules` dictionary: dictionary key, keyword
list, target directory relative to the export root, year strategy and
extension. -/
structure NewRule where
  key : String
  keywords : List String
  target_dir : String
  year_strategy : String
  format : String
deriving DecidableEq

def scrpaCadRule : LegacyRule :=
  ⟨"SCRPA_CAD_Export", .desktop, "_CAD/SCRPA", "SCRPA_CAD", "CAD", "xlsx"⟩

def scrpaRmsRule : LegacyRule :=
  ⟨"SCRPA_RMS_Export", .desktop, "_RMS/SCRPA", "SCRPA_RMS", "RMS", "xlsx"⟩

def otActivityRule : LegacyRule :=
  ⟨"OTActivity", .downOneDrive, "_POSS_EXPORT/OVERTIME_EXPORT", "OTActivity",
   "OvertimeActivity", "xlsx"⟩

def timeOffActivityRule : LegacyRule :=
  ⟨"TimeOffActivity", .downOneDrive, "_POSS_EXPORT/TIME_OFF_EXPORT", "TimeOffActivity",
   "TimeOffActivity", "xlsx"⟩

def eTicketRule : LegacyRule :=
  ⟨"e_ticket", .downOneDrive, "_Summons/E_Ticket", "e_ticket", "E_Ticket", "xlsx"⟩

def backtracetArrestsRule : LegacyRule :=
  ⟨"Backtracet_Arrests_Export", .downOneDrive, "_BACKTRACE_ARRESTS",
   "Backtracet_Arrests_Export", "Backtracet_Arrests", "xlsx"⟩

/-- The `legacy_rules` dictionary in declaration order (lines 221-270). -/
def legacy_rules : List LegacyRule :=
  [scrpaCadRule, scrpaRmsRule, otActivityRule, timeOffActivityRule,
   eTicketRule, backtracetArrestsRule]

def monthlyCadRule : NewRule :=
  ⟨"Monthly_CAD", ["Monthly_CAD"], "_CAD/monthly_export", "start", "xlsx"⟩

def monthlyRmsRule : NewRule :=
  ⟨"Monthly_RMS", ["Monthly_RMS"], "_RMS/monthly_export", "start", "xlsx"⟩

def rolling13CadRule : NewRule :=
  ⟨"Rolling13_CAD", ["Rolling13_CAD"], "_CAD/rolling_13", "end_range", "xlsx"⟩

def rolling13RmsRule : NewRule :=
  ⟨"Rolling13_RMS", ["Rolling13_RMS"], "_RMS/rolling_13", "end_range", "xlsx"⟩

def responseTimeCadRule : NewRule :=
  ⟨"ResponseTime_CAD", ["ResponseTime_CAD"], "_CAD/response_time", "end_range", "xlsx"⟩

def responseTimeRmsRule : NewRule :=
  ⟨"ResponseTime_RMS", ["ResponseTime_RMS"], "_RMS/response_time", "end_range", "xlsx"⟩

/-- The `new_rules` dictionary in declaration order (lines 273-316). -/
def new_rules : List NewRule :=
  [monthlyCadRule, monthlyRmsRule, rolling13CadRule, rolling13RmsRule,
   responseTimeCadRule, responseTimeRmsRule]

/-- The rule selected by the router: either a legacy entry or a new
entry. -/
inductive MatchedRule
  | legacy (r : LegacyRule)
  | newRule (r : NewRule)
deriving DecidableEq

/-! ## Rule matching of `_handle` (watchdog_service.py lines 388-407)

The handler lowercases `fp.name` once, then walks the legacy rules in
declaration order checking `key.lower() in name_lower` and
`name_lower.endswith("." + format)`, and if none matched walks the new
rules, checking each keyword the same way.  The first hit wins.
-/

/-- The condition of the legacy loop body (line 392): lowercased key
occurs in the lowercased name, which ends with the dot-extension. -/
def legacyCond (nl : List Char) (r : LegacyRule) : Bool :=
  containsSub nl (lowerChars (r.key.toList)) && isSuffixB ('.' :: r.format.toList) nl

/-- The condition of the new-rules loop body (line 402), with the
dot-extension check repeated per keyword as in the source. -/
def newCond (nl : List Char) (r : NewRule) : Bool :=
  r.keywords.any fun k =>
    containsSub nl (lowerChars (k.toList)) && isSuffixB ('.' :: r.format.toList) nl

/-- The legacy-rules loop (lines 391-397): first legacy rule satisfying
its condition. -/
def legacyFind (nl : List Char) : List LegacyRule → Option LegacyRule
  | [] => none
  | r :: rest => if legacyCond nl r then some r else legacyFind nl rest

/-- The new-rules loop (lines 400-407): first new rule one of whose
keywords satisfies the condition. -/
def newFind (nl : List Char) : List NewRule → Option NewRule
  | [] => none
  | r :: rest => if newCond nl r then some r else newFind nl rest

/-- The rule-selection logic of `_handle` on a filename: legacy rules in
declaration order first, then new rules in declaration order. -/
def routerMatch (fname : String) : Option MatchedRule :=
  let nl := lowerChars (fname.toList)
  match legacyFind nl legacy_rules with
  | some r => some (MatchedRule.legacy r)
  | none => Option.map MatchedRule.newRule (newFind nl new_rules)

/-- Keywords of a rule as described by the specification: the
dictionary key for a legacy rule, the keyword list for a new rule. -/
def ruleKeywords : MatchedRule → List String
  | .legacy r => [r.key]
  | .newRule r => r.keywords

/-- Extension of a rule. -/
def ruleFormat : MatchedRule → String
  | .legacy r => r.format
  | .newRule r => r.format

/-- The match predicate in the words of the specification: the
lowercased filename ends with dot plus the rule format and contains at
least one rule keyword case-insensitively. -/
def specMatches (nl : List Char) (r : MatchedRule) : Bool :=
  isSuffixB ('.' :: (ruleFormat r).toList) nl &&
  (ruleKeywords r).any (fun k => containsSub nl (lowerChars (k.toList)))

/-- All rules in the declared evaluation order: legacy rules first, then
new rules. -/
def orderedRules : List MatchedRule :=
  legacy_rules.map MatchedRule.legacy ++ new_rules.map MatchedRule.newRule

theorem list_any_and_const (ks : List String) (f : String → Bool) (s : Bool) :
    (ks.any fun k => f k && s) = (s && ks.any f) := by
  induction ks with
  | nil => cases s <;> rfl
  | cons a t ih =>
    simp only [List.any_cons, ih]
    cases s <;> cases f a <;> simp

theorem find?_cons_true {α : Type} (p : α → Bool) (a : α) (l : List α) (h : p a = true) :
    (a :: l).find? p = some a := by
  simp [List.find?, h]

theorem find?_cons_false {α : Type} (p : α → Bool) (a : α) (l : List α) (h : p a = false) :
    (a :: l).find? p = l.find? p := by
  simp [List.find?, h]

theorem legacy_cond_eq (nl : List Char) (r : LegacyRule) :
    legacyCond nl r = specMatches nl (.legacy r) := by
  simp only [legacyCond, specMatches, ruleKeywords, ruleFormat, List.any_cons, List.any_nil,
    Bool.or_false]
  exact Bool.and_comm _ _

theorem new_cond_eq (nl : List Char) (r : NewRule) :
    newCond nl r = specMatches nl (.newRule r) := by
  simp only [newCond, specMatches, ruleKeywords, ruleFormat]
  exact list_any_and_const _ _ _

theorem newFind_eq_find (nl : List Char) :
    ∀ N : List NewRule, Option.map MatchedRule.newRule (newFind nl N)
      = (N.map MatchedRule.newRule).find? (specMatches nl) := by
  intro N
  induction N with
  | nil => rfl
  | cons r rest ih =>
    cases hc : specMatches nl (MatchedRule.newRule r) with
    | true =>
      unfold newFind
      rw [new_cond_eq, if_pos hc, List.map_cons, find?_cons_true _ _ _ hc]
      rfl
    | false =>
      unfold newFind
      rw [new_cond_eq, if_neg (by rw [Bool.not_eq_true]; exact hc), List.map_cons,
        find?_cons_false _ _ _ hc]
      exact ih

/-- C1: rule matching is deterministic and follows declared order.  The
router computes, from the lowercased filename alone, exactly the first
rule of the declared evaluation order (all legacy rules in declaration
order, then all new rules in declaration order) satisfying the
specification predicate: the lowercased filename ends with dot plus the
rule format and contains at least one rule keyword case-insensitively.
Being a pure function of the filename, repeated calls on the same
filename select the same rule or none. -/
theorem c1_router_match_first_declared (fname : String) :
    routerMatch fname
      = orderedRules.find? (specMatches (lowerChars (fname.toList))) := by
  have main : ∀ L : List LegacyRule,
      (match legacyFind (lowerChars (fname.toList)) L with
       | some r => some (MatchedRule.legacy r)
       | none => Option.map MatchedRule.newRule
           (newFind (lowerChars (fname.toList)) new_rules))
      = (L.map MatchedRule.legacy ++ new_rules.map MatchedRule.newRule).find?
          (specMatches (lowerChars (fname.toList))) := by
    intro L
    induction L with
    | nil =>
      simp only [legacyFind, List.map_nil, List.nil_append]
      exact newFind_eq_find (lowerChars (fname.toList)) new_rules
    | cons r rest ih =>
      cases hc : specMatches (lowerChars (fname.toList)) (MatchedRule.legacy r) with
      | true =>
        unfold legacyFind
        rw [legacy_cond_eq, if_pos hc, List.map_cons, List.cons_append,
          find?_cons_true _ _ _ hc]
      | false =>
        unfold legacyFind
        rw [legacy_cond_eq, if_neg (by rw [Bool.not_eq_true]; exact hc), List.map_cons,
          List.cons_append, find?_cons_false _ _ _ hc]
        exact ih
  simpa only [routerMatch, orderedRules] using main legacy_rules

/-! ## String append facts used for path computations -/

theorem string_append_assoc (a b c : String) : a ++ b ++ c = a ++ (b ++ c) := by
  rcases a with ⟨la⟩
  rcases b with ⟨lb⟩
  rcases c with ⟨lc⟩
  show String.mk (la ++ lb ++ lc) = String.mk (la ++ (lb ++ lc))
  rw [List.append_assoc]

theorem string_append_empty (a : String) : a ++ "" = a := by
  rcases a with ⟨la⟩
  show String.mk (la ++ []) = String.mk la
  rw [List.append_nil]

/-! ## Destination computation for new rules (lines 437-463)

`_move_new_rule_file` extracts the year with the rule strategy; on
success the destination directory is the export root joined with the
target directory and the year, on failure the root joined with the
target directory alone; the original filename is appended unchanged.
-/

/-- Destination path computed by `_move_new_rule_file` for a file named
`fname` under rule `cfg`, with export root `root`. -/
def new_rule_dest (root : String) (cfg : NewRule) (fname : String) : String :=
  match extract_year (fname.toList) cfg.year_strategy with
  | none => joinPath (joinPath root cfg.target_dir) fname
  | some y => joinPath (joinPath (joinPath root cfg.target_dir) (String.mk y)) fname

/-- C6: YearBucketed destination computation.  When year extraction
under the rule strategy succeeds for a file matched by a year-bucketed
rule, the destination is root, target directory, year, original
filename; when it fails, the year component is omitted; the filename is
always the final path component; and the end-to-end scenario file
2025_03_Monthly_CAD.xlsx lands in the monthly CAD export folder for
2025 with its name unchanged. -/
theorem c6_year_bucketed_dest (root : String) (cfg : NewRule) (fname : String)
    (_hm : routerMatch fname = some (.newRule cfg)) :
    (∀ y, extract_year (fname.toList) cfg.year_strategy = some y →
      new_rule_dest root cfg fname =
        joinPath (joinPath (joinPath root cfg.target_dir) (String.mk y)) fname) ∧
    (extract_year (fname.toList) cfg.year_strategy = none →
      new_rule_dest root cfg fname = joinPath (joinPath root cfg.target_dir) fname) ∧
    (∃ dir, new_rule_dest root cfg fname = joinPath dir fname) ∧
    (∀ name2, name2 = "2025_03_Monthly_CAD.xlsx" →
      new_rule_dest root monthlyCadRule name2 =
        root ++ "/_CAD/monthly_export/2025/2025_03_Monthly_CAD.xlsx") := by
  refine ⟨?_, ?_, ?_, ?_⟩
  · intro y hy
    unfold new_rule_dest
    rw [hy]
  · intro hy
    unfold new_rule_dest
    rw [hy]
  · cases hy : extract_year (fname.toList) cfg.year_strategy with
    | none =>
      exact ⟨joinPath root cfg.target_dir, by unfold new_rule_dest; rw [hy]⟩
    | some y =>
      exact ⟨joinPath (joinPath root cfg.target_dir) (String.mk y),
        by unfold new_rule_dest; rw [hy]⟩
  · intro name2 hn
    subst hn
    have h1 : new_rule_dest root monthlyCadRule ("2025_03_Monthly_CAD.xlsx")
        = root ++ "/" ++ "_CAD/monthly_export" ++ "/" ++ "2025" ++
          "/" ++ "2025_03_Monthly_CAD.xlsx" := rfl
    rw [h1, string_append_assoc, string_append_assoc, string_append_assoc,
      string_append_assoc, string_append_assoc]
    have h2 : ("/" : String) ++ ("_CAD/monthly_export" ++ ("/" ++ ("2025" ++
        ("/" ++ "2025_03_Monthly_CAD.xlsx"))))
        = "/_CAD/monthly_export/2025/2025_03_Monthly_CAD.xlsx" := by decide
    rw [h2]

/-- The monthly CAD scenario input matches the Monthly_CAD rule. -/
def scenarioBName : String := "2025_03_Monthly_CAD.xlsx"

/-- C6 witness: the theorem applied to the scenario B filename, with
the rule-match hypothesis and the year-extraction hypothesis discharged
by evaluation. -/
theorem c6_year_bucketed_dest_witness :
    new_rule_dest "ROOT" monthlyCadRule scenarioBName =
      joinPath (joinPath (joinPath "ROOT" (monthlyCadRule.target_dir))
        (String.mk ("2025".toList))) scenarioBName :=
  (c6_year_bucketed_dest "ROOT" monthlyCadRule scenarioBName (by decide)).1
    ("2025".toList) (by decide)

/-! ## Legacy destination with timestamp prefix (lines 417-424)

`_move_legacy_file` computes `ts = datetime.now().strftime
("%Y_%m_%d_%H_%M_%S")` and the destination `cfg[dest] / f"{ts}_{suffix}
.{format}"`.  The wall-clock instant is a six-field record and strftime
is interpreted over the format string, with the zero-padded numeric
directives the C library applies. -/

/-- A wall-clock instant as used by the timestamp: year, month, day,
hour, minute, second. -/
structure DateTime6 where
  year : Nat
  month : Nat
  day : Nat
  hour : Nat
  minute : Nat
  second : Nat
deriving DecidableEq

/-- Two-digit zero padding of the numeric strftime directives. -/
def pad2 (n : Nat) : String := if n < 10 then "0" ++ toString n else toString n

/-- Four-digit zero padding of the year directive. -/
def pad4 (n : Nat) : String :=
  if n < 10 then "000" ++ toString n
  else if n < 100 then "00" ++ toString n
  else if n < 1000 then "0" ++ toString n
  else toString n

/-- Interpreter for the strftime directives appearing in the source
format string; any other character is copied verbatim. -/
def strftime (t : DateTime6) : List Char → String
  | [] => ""
  | '%' :: 'Y' :: rest => pad4 t.year ++ strftime t rest
  | '%' :: 'm' :: rest => pad2 t.month ++ strftime t rest
  | '%' :: 'd' :: rest => pad2 t.day ++ strftime t rest
  | '%' :: 'H' :: rest => pad2 t.hour ++ strftime t rest
  | '%' :: 'M' :: rest => pad2 t.minute ++ strftime t rest
  | '%' :: 'S' :: rest => pad2 t.second ++ strftime t rest
  | c :: rest => String.mk [c] ++ strftime t rest

/-- The format string of line 422. -/
def timestampFmt : String := "%Y_%m_%d_%H_%M_%S"

/-- The new filename computed by `_move_legacy_file` (line 423). -/
def legacy_new_name (t : DateTime6) (cfg : LegacyRule) : String :=
  strftime t (timestampFmt.toList) ++ "_" ++ cfg.suffix ++ "." ++ cfg.format

/-- The destination path computed by `_move_legacy_file` (line 424),
with export root `root`. -/
def legacy_dest (root : String) (t : DateTime6) (cfg : LegacyRule) : String :=
  joinPath (joinPath root cfg.destRel) (legacy_new_name t cfg)

/-- C7: TimestampPrefix naming contract.  The destination computed for
a legacy rule is the rule destination directory joined with the name
timestamp underscore suffix dot format, where the timestamp expands the
current wall-clock fields in exactly the order year month day hour
minute second, zero padded, separated by single underscores; a concrete
instant under the SCRPA CAD rule produces exactly the contractual
name. -/
theorem c7_timestamp_naming (root : String) (t : DateTime6) (cfg : LegacyRule) :
    legacy_dest root t cfg =
      joinPath (joinPath root cfg.destRel)
        (pad4 t.year ++ "_" ++ pad2 t.month ++ "_" ++ pad2 t.day ++ "_" ++
          pad2 t.hour ++ "_" ++ pad2 t.minute ++ "_" ++ pad2 t.second ++ "_" ++
          cfg.suffix ++ "." ++ cfg.format) ∧
    legacy_new_name ⟨2025, 3, 14, 9, 5, 7⟩ scrpaCadRule =
      "2025_03_14_09_05_07_SCRPA_CAD.xlsx" := by
  constructor
  · have hfmt : strftime t (timestampFmt.toList) =
        pad4 t.year ++ "_" ++ pad2 t.month ++ "_" ++ pad2 t.day ++ "_" ++
          pad2 t.hour ++ "_" ++ pad2 t.minute ++ "_" ++ pad2 t.second := by
      show strftime t
          ('%' :: 'Y' :: '_' :: '%' :: 'm' :: '_' :: '%' :: 'd' :: '_' ::
           '%' :: 'H' :: '_' :: '%' :: 'M' :: '_' :: '%' :: 'S' :: []) = _
      simp only [strftime]
      have hu : String.mk ['_'] = "_" := rfl
      rw [hu, string_append_empty]
      simp only [string_append_assoc]
    unfold legacy_dest legacy_new_name
    rw [hfmt]
  · decide

/-! ## Event handling and debounce (watchdog_service.py lines 367-407)

`_handle` receives a path, reads the clock, returns early (without any
cleanup) when the path has an entry younger than the debounce window,
otherwise rebuilds the map keeping only entries younger than the
window, matches the filename against the rules, and on a match records
the path with the current time before moving the file.  The
path-to-timestamp dictionary is modelled as an association list in
insertion order, the clock as an integer passed in. -/

/-- A filesystem path as the handler sees it: directory part and final
name component (`fp.name`). -/
structure FPath where
  dir : List String
  fname : String
deriving DecidableEq

/-- Observable outcome of one `_handle` call: suppressed by the
debounce early return, processed by a matching rule, or silently
ignored because no rule matched. -/
inductive HandleOutcome
  | suppressed
  | processed (r : MatchedRule)
  | noMatch
deriving DecidableEq

/-- `event_debounce_seconds` (line 217). -/
def debounceWindow : Int := 5

/-- Dictionary lookup in the `recently_handled` association list. -/
def findTime : List (FPath × Int) → FPath → Option Int
  | [], _ => none
  | (q, t) :: rest, p => if q = p then some t else findTime rest p

/-- The tail of `_handle` after the debounce early return: the cleanup
comprehension of lines 383-386 followed by the rule loops; on a match
the path is recorded with the current time (the matched path is never a
survivor of the sweep there, since a fresh entry would have triggered
the early return, so the dictionary assignment appends). -/
def handleAfterDebounce (st : List (FPath × Int)) (fp : FPath) (now : Int) :
    HandleOutcome × List (FPath × Int) :=
  match routerMatch fp.fname with
  | some r =>
    (.processed r, (st.filter fun q => now - q.2 < debounceWindow) ++ [(fp, now)])
  | none => (.noMatch, st.filter fun q => now - q.2 < debounceWindow)

/-- `_handle` (lines 367-407) as a state transition on the
`recently_handled` association list. -/
def handle (st : List (FPath × Int)) (fp : FPath) (now : Int) :
    HandleOutcome × List (FPath × Int) :=
  match findTime st fp with
  | some t =>
    if now - t < debounceWindow then (.suppressed, st)
    else handleAfterDebounce st fp now
  | none => handleAfterDebounce st fp now

theorem findTime_filter_none (st : List (FPath × Int)) (p : FPath)
    (f : FPath × Int → Bool) (h : findTime st p = none) :
    findTime (st.filter f) p = none := by
  induction st with
  | nil => rfl
  | cons e rest ih =>
    rcases e with ⟨q, t⟩
    unfold findTime at h
    by_cases hq : q = p
    · rw [if_pos hq] at h; cases h
    · rw [if_neg hq] at h
      cases hf : f (q, t) with
      | true =>
        rw [List.filter_cons_of_pos hf]
        unfold findTime
        rw [if_neg hq]
        exact ih h
      | false =>
        rw [List.filter_cons_of_neg (by simp [hf])]
        exact ih h

theorem findTime_append_single (l : List (FPath × Int)) (p : FPath) (t : Int)
    (h : findTime l p = none) :
    findTime (l ++ [(p, t)]) p = some t := by
  induction l with
  | nil => simp [findTime]
  | cons e rest ih =>
    rcases e with ⟨q, u⟩
    unfold findTime at h
    by_cases hq : q = p
    · rw [if_pos hq] at h; cases h
    · rw [if_neg hq] at h
      rw [List.cons_append]
      unfold findTime
      rw [if_neg hq]
      exact ih h

/-- Every entry of the state produced by the post-debounce tail of
`_handle` is younger than the debounce window. -/
theorem mem_handleAfterDebounce (st : List (FPath × Int)) (p : FPath) (now : Int) :
    ∀ e ∈ (handleAfterDebounce st p now).2, now - e.2 < debounceWindow := by
  intro e he
  unfold handleAfterDebounce at he
  cases hm : routerMatch p.fname with
  | some r =>
    rw [hm] at he
    simp only at he
    rcases List.mem_append.mp he with hin | hin
    · exact of_decide_eq_true (List.mem_filter.mp hin).2
    · have : e = (p, now) := by simpa using hin
      rw [this]
      simp [debounceWindow]
  | none =>
    rw [hm] at he
    simp only at he
    exact of_decide_eq_true (List.mem_filter.mp he).2

/-- Unfolding of `handle` when the path has an entry. -/
theorem handle_some (st : List (FPath × Int)) (fp : FPath) (now t : Int)
    (h : findTime st fp = some t) :
    handle st fp now =
      if now - t < debounceWindow then (.suppressed, st)
      else handleAfterDebounce st fp now := by
  unfold handle
  rw [h]

/-- Unfolding of `handle` when the path has no entry. -/
theorem handle_none (st : List (FPath × Int)) (fp : FPath) (now : Int)
    (h : findTime st fp = none) :
    handle st fp now = handleAfterDebounce st fp now := by
  unfold handle
  rw [h]

/-- C2 counterexample: for a path whose filename matches no rule, the
first `_handle` call records nothing (the state stays empty), and a
second call one time unit later is not suppressed, contradicting the
claim that for every path the first call records the time and the
second call within the window is discarded. -/
def unmatchedPath : FPath := ⟨[], "random_notes.txt"⟩

theorem c2_unmatched_path_not_recorded :
    handle [] unmatchedPath 0 = (.noMatch, []) ∧
    (handle (handle [] unmatchedPath 0).2 unmatchedPath 1).1 ≠ .suppressed := by
  decide

/-- C2 (amended): for every path whose filename matches a rule and that
has no entry in the state, a first `_handle` call at `t1` processes the
path and records `t1` against it; a second call at `t2` within the
debounce window is suppressed and leaves the state unchanged; a third
call at `t3` at or past the window is processed again. -/
theorem c2_debounce_cycle (st : List (FPath × Int)) (p : FPath) (r : MatchedRule)
    (t1 t2 t3 : Int)
    (hm : routerMatch p.fname = some r)
    (h0 : findTime st p = none)
    (h2 : t2 - t1 < debounceWindow)
    (h3 : debounceWindow ≤ t3 - t1) :
    ∃ s1, handle st p t1 = (.processed r, s1) ∧ findTime s1 p = some t1 ∧
      handle s1 p t2 = (.suppressed, s1) ∧
      (handle s1 p t3).1 = .processed r := by
  have hrec : findTime ((st.filter fun q => t1 - q.2 < debounceWindow) ++ [(p, t1)]) p
      = some t1 :=
    findTime_append_single _ p t1 (findTime_filter_none st p _ h0)
  refine ⟨(st.filter fun q => t1 - q.2 < debounceWindow) ++ [(p, t1)], ?_, hrec, ?_, ?_⟩
  · rw [handle_none st p t1 h0]
    unfold handleAfterDebounce
    rw [hm]
  · rw [handle_some _ p t2 t1 hrec, if_pos h2]
  · rw [handle_some _ p t3 t1 hrec, if_neg (by omega)]
    unfold handleAfterDebounce
    rw [hm]

/-- A concrete monitored path carrying the scenario B filename. -/
def wPathB : FPath := ⟨["watch"], "2025_03_Monthly_CAD.xlsx"⟩

/-- C2 witness: the amended debounce cycle at the concrete matching
path, times 0, 3 and 7, starting from the empty state. -/
theorem c2_debounce_cycle_witness :
    ∃ s1, handle [] wPathB 0 = (.processed (MatchedRule.newRule monthlyCadRule), s1) ∧
      findTime s1 wPathB = some 0 ∧
      handle s1 wPathB 3 = (.suppressed, s1) ∧
      (handle s1 wPathB 7).1 = .processed (MatchedRule.newRule monthlyCadRule) :=
  c2_debounce_cycle [] wPathB (MatchedRule.newRule monthlyCadRule) 0 3 7
    (by decide) rfl (by decide) (by decide)

/-- A path carrying a stale entry in the concrete debounce state. -/
def stalePath : FPath := ⟨["d"], "old.txt"⟩

/-- A path carrying a fresh entry in the concrete debounce state. -/
def freshPath : FPath := ⟨["d"], "fresh.txt"⟩

/-- A concrete state holding one stale and one fresh entry. -/
def staleState : List (FPath × Int) := [(stalePath, 0), (freshPath, 10)]

/-- C9 counterexample: a suppressed call returns before the cleanup, so
an entry older than the debounce window survives the call,
contradicting the claim that every call removes all stale entries. -/
theorem c9_suppressed_call_keeps_stale_entry :
    (handle staleState freshPath 12).1 = .suppressed ∧
    (handle staleState freshPath 12).2 = staleState ∧
    ∃ e ∈ (handle staleState freshPath 12).2, debounceWindow ≤ (12 : Int) - e.2 := by
  decide

/-- C9 (amended): every `_handle` call that is not suppressed by the
debounce early return sweeps the state, so afterwards every entry was
accepted within the debounce window of the current call time. -/
theorem c9_sweep_on_accept (st : List (FPath × Int)) (p : FPath) (now : Int)
    (h : (handle st p now).1 ≠ .suppressed) :
    ∀ e ∈ (handle st p now).2, now - e.2 < debounceWindow := by
  intro e he
  cases hf : findTime st p with
  | none =>
    rw [handle_none st p now hf] at he
    exact mem_handleAfterDebounce st p now e he
  | some t =>
    rw [handle_some st p now t hf] at h he
    by_cases hlt : now - t < debounceWindow
    · rw [if_pos hlt] at h
      exact absurd rfl h
    · rw [if_neg hlt] at he
      exact mem_handleAfterDebounce st p now e he

/-- C9 witness: a non-suppressed concrete call leaves only entries
younger than the window. -/
theorem c9_sweep_on_accept_witness :
    ((handle staleState freshPath 20).2).all
      (fun e => decide ((20 : Int) - e.2 < debounceWindow)) = true := by
  rw [List.all_eq_true]
  intro e he
  exact decide_eq_true (c9_sweep_on_accept staleState freshPath 20 (by decide) e he)

/-! ## Startup scan (watchdog_service.py lines 330-350)

`_process_existing_files` walks the legacy rules, globbing the pattern
star key star dot format in that rule's own `src` folder only, then
walks the new rules, globbing each keyword pattern in every monitored
folder.  Matches are handed straight to the per-rule move routines
(`_move_legacy_file`, `_move_new_rule_file`) without the settle delay or
the debounce of `_handle`.  Globbing a pattern star mid star dot format
against a filename is modelled case-insensitively, matching the
Windows `pathlib.glob` semantics under which the service runs and the
case-insensitive live matching. -/

/-- The `monitor_paths` list (lines 205-209). -/
def monitorFolders : List Folder := [.desktop, .downOneDrive, .downLocal]

/-- Whether a filename matches the glob pattern star mid star dot
format. -/
def globMatch (mid fmt fname : String) : Bool :=
  containsSub (lowerChars (fname.toList)) (lowerChars (mid.toList)) &&
  isSuffixB (lowerChars ('.' :: fmt.toList)) (lowerChars (fname.toList))

/-- The files found and processed by `_process_existing_files`, as
triples of scanned folder, filename and the rule whose move routine
receives the file, in processing order.  `files` gives the directory
listing of each monitored folder. -/
def startupScan (files : Folder → List String) :
    List (Folder × String × MatchedRule) :=
  (legacy_rules.flatMap fun r =>
    ((files r.src).filter fun f => globMatch r.key r.format f).map
      fun f => (r.src, f, MatchedRule.legacy r))
  ++ (new_rules.flatMap fun r =>
      r.keywords.flatMap fun k =>
        monitorFolders.flatMap fun d =>
          ((files d).filter fun f => globMatch k r.format f).map
            fun f => (d, f, MatchedRule.newRule r))

/-- A legacy-matching filename sitting in the local Downloads folder. -/
def strandedName : String := "SCRPA_CAD_Export_test.xlsx"

/-- Directory listings with the legacy-matching file in the local
Downloads folder, a folder the legacy startup scan never visits. -/
def strandedFiles : Folder → List String
  | .downLocal => [strandedName]
  | _ => []

/-- C8 counterexample: a file in a monitored folder whose name the live
router matches against a legacy rule is not found by the startup scan,
because each legacy rule is only globbed in its own configured source
folder; here the file sits in the local Downloads folder while the
SCRPA CAD rule is globbed on the desktop only, so the scan finds
nothing, contradicting the claim that every matching file in any
monitored folder is found. -/
theorem c8_legacy_file_in_other_folder_missed :
    Folder.downLocal ∈ monitorFolders ∧
    strandedName ∈ strandedFiles Folder.downLocal ∧
    routerMatch strandedName = some (MatchedRule.legacy scrpaCadRule) ∧
    startupScan strandedFiles = [] := by
  decide

/-- C8 (amended): the startup scan finds exactly the files given by the
per-rule globs: a folder, filename and legacy rule appear in the scan
iff the folder is that rule's own source folder and the name carries
the rule key and extension, and a folder, filename and new rule appear
iff the folder is any monitored folder and the name carries one of the
rule keywords and the extension; found files go to the same per-rule
move routines as live events, with no settle delay or debounce. -/
theorem c8_startup_scan_coverage (files : Folder → List String)
    (d : Folder) (f : String) (mr : MatchedRule) :
    (d, f, mr) ∈ startupScan files ↔
      ((∃ r ∈ legacy_rules, mr = MatchedRule.legacy r ∧ d = r.src ∧
        f ∈ files r.src ∧ globMatch r.key r.format f = true) ∨
       (∃ r ∈ new_rules, mr = MatchedRule.newRule r ∧ d ∈ monitorFolders ∧
        f ∈ files d ∧ ∃ k ∈ r.keywords, globMatch k r.format f = true)) := by
  constructor
  · intro h
    rcases List.mem_append.mp h with h | h
    · left
      rcases List.mem_flatMap.mp h with ⟨r, hr, hmem⟩
      rcases List.mem_map.mp hmem with ⟨f0, hf0, heq⟩
      rcases List.mem_filter.mp hf0 with ⟨hfin, hglob⟩
      obtain ⟨h1, h2, h3⟩ : r.src = d ∧ f0 = f ∧ MatchedRule.legacy r = mr := by
        simpa [Prod.ext_iff] using heq
      subst h1
      subst h2
      subst h3
      exact ⟨r, hr, rfl, rfl, hfin, hglob⟩
    · right
      rcases List.mem_flatMap.mp h with ⟨r, hr, hmem⟩
      rcases List.mem_flatMap.mp hmem with ⟨k, hk, hmem2⟩
      rcases List.mem_flatMap.mp hmem2 with ⟨d0, hd0, hmem3⟩
      rcases List.mem_map.mp hmem3 with ⟨f0, hf0, heq⟩
      rcases List.mem_filter.mp hf0 with ⟨hfin, hglob⟩
      obtain ⟨h1, h2, h3⟩ : d0 = d ∧ f0 = f ∧ MatchedRule.newRule r = mr := by
        simpa [Prod.ext_iff] using heq
      subst h1
      subst h2
      subst h3
      exact ⟨r, hr, rfl, hd0, hfin, k, hk, hglob⟩
  · intro h
    rcases h with ⟨r, hr, hmr, hsrc, hfin, hglob⟩ | ⟨r, hr, hmr, hd, hfin, k, hk, hglob⟩
    · subst hmr
      subst hsrc
      exact List.mem_append.mpr (Or.inl (List.mem_flatMap.mpr ⟨r, hr,
        List.mem_map.mpr ⟨f, List.mem_filter.mpr ⟨hfin, hglob⟩, rfl⟩⟩))
    · subst hmr
      exact List.mem_append.mpr (Or.inr (List.mem_flatMap.mpr ⟨r, hr,
        List.mem_flatMap.mpr ⟨k, hk, List.mem_flatMap.mpr ⟨d, hd,
          List.mem_map.mpr ⟨f, List.mem_filter.mpr ⟨hfin, hglob⟩, rfl⟩⟩⟩⟩))
